import Mathlib

/-!
Verification of the social-content extraction-and-normalization pipeline of
this repository (the weibo / xiaohongshu automation scripts).  The JavaScript
source is shallowly embedded: pure text manipulation becomes functions over
`List Char` / `String`, JS numbers become an explicit `JSNum` (a rational or
NaN; numbers are modelled exactly over `ℚ` — IEEE rounding is not modelled,
none of the claims depend on it), nullable DOM reads become `Option`, and the
enrichment loop of `fetchLatestNotes` becomes a recursion over the enumerated
cards driven by an explicit environment of operation outcomes.
-/

/-! ## Character-list utilities modelling JS string primitives -/

/-- Test whether `pat` is a leading segment of `l` (JS `String.startsWith`). -/
def leadsWith : List Char → List Char → Bool
  | [], _ => true
  | _ :: _, [] => false
  | a :: as, b :: bs => a = b && leadsWith as bs

/-- JS `String.includes`: `pat` occurs contiguously somewhere in `l`. -/
def hasSubstr (pat : List Char) : List Char → Bool
  | [] => pat.isEmpty
  | l@(_ :: t) => leadsWith pat l || hasSubstr pat t

/-- JS `str.replace(pat, repl)` with a plain-string pattern: replace the
first occurrence only. -/
def replaceFirst (pat repl : List Char) : List Char → List Char
  | [] => if pat.isEmpty then repl else []
  | l@(c :: t) =>
      if leadsWith pat l then repl ++ l.drop pat.length
      else c :: replaceFirst pat repl t

/-- JS `str.split(c)` for a one-character separator: `"".split(c) = [""]`,
separators at either end produce empty segments. -/
def splitOnChar (c : Char) : List Char → List (List Char)
  | [] => [[]]
  | x :: xs =>
      match splitOnChar c xs with
      | [] => [[]]
      | r :: rs => if x = c then [] :: r :: rs else (x :: r) :: rs

/-- Join segments with a one-character separator (inverse of `splitOnChar`
on separator-free segments). -/
def joinWith (c : Char) : List (List Char) → List Char
  | [] => []
  | [p] => p
  | p :: q :: rest => p ++ c :: joinWith c (q :: rest)

/-- JS `String.trim`: drop whitespace from both ends. -/
def jsTrim (l : List Char) : List Char :=
  ((l.dropWhile Char.isWhitespace).reverse.dropWhile Char.isWhitespace).reverse

/-- String wrapper for `jsTrim`. -/
def jsTrimStr (s : String) : String := String.mk (jsTrim s.data)

/-- JS `str.replace(/,/g, '')`: remove every comma. -/
def removeCommas (l : List Char) : List Char := l.filter (fun c => c ≠ ',')

/-- JS `str.replace(/\s+/g, '')`: replacing each whitespace run by the empty
string deletes every whitespace character. -/
def removeAllWs (l : List Char) : List Char := l.filter (fun c => ¬ c.isWhitespace)

/-- Numeric value of a string of decimal digits. -/
def digitsToNat (l : List Char) : Nat :=
  l.foldl (fun n c => 10 * n + (c.toNat - '0'.toNat)) 0

/-- All characters are ASCII decimal digits (JS `\d`). -/
def allDigits (l : List Char) : Bool := l.all Char.isDigit

/-- Powers of ten, structurally recursive for easy kernel evaluation. -/
def pow10 : Nat → Nat
  | 0 => 1
  | n + 1 => 10 * pow10 n

/-! ## JS numbers -/

/-- A JavaScript number as this pipeline can observe it: an exact rational,
or NaN.  (Infinities never arise from the embedded code paths.) -/
inductive JSNum where
  | nan : JSNum
  | val : ℚ → JSNum
deriving DecidableEq, Repr

/-- JS multiplication restricted to the cases arising here: NaN is absorbing,
and the rational product is formed from numerators and denominators through
`Rat.divInt` (which normalizes, so this is exactly rational multiplication). -/
def JSNum.mul : JSNum → JSNum → JSNum
  | .nan, _ => .nan
  | _, .nan => .nan
  | .val a, .val b => .val (Rat.divInt (a.num * b.num) (a.den * b.den))

/-- JS truthiness of a number: `NaN`, `0` and `-0` are falsy.  A normalized
rational is zero exactly when its numerator is. -/
def JSNum.truthy : JSNum → Bool
  | .nan => false
  | .val q => q.num != 0

/-- Whether the list starts with the character `c`. -/
def headIs (c : Char) : List Char → Bool
  | [] => false
  | x :: _ => x = c

/-- Model of JS `parseFloat` for decimal numerals: skip leading whitespace,
optional sign, integer digits, optional fraction, optional exponent; the
longest valid numeric head is taken, and no numeric head at all gives NaN.
The value `sign * intpart.fracpart * 10^exp` is assembled as one exact
rational via `Rat.divInt` (JS would round to a double). -/
def jsParseFloat (s : String) : JSNum :=
  let l := s.data.dropWhile Char.isWhitespace
  let neg : Bool := headIs '-' l
  let l1 : List Char := if headIs '-' l || headIs '+' l then l.tail else l
  let ip := l1.takeWhile Char.isDigit
  let r1 := l1.dropWhile Char.isDigit
  let fp : List Char := if headIs '.' r1 then r1.tail.takeWhile Char.isDigit else []
  let r2 : List Char := if headIs '.' r1 then r1.tail.dropWhile Char.isDigit else r1
  if ip.isEmpty && fp.isEmpty then .nan
  else
    let m : ℤ := Int.ofNat (digitsToNat ip * pow10 fp.length + digitsToNat fp)
    let mant : ℤ := if neg then -m else m
    let den : ℕ := pow10 fp.length
    if headIs 'e' r2 || headIs 'E' r2 then
      let t := r2.tail
      let t1 : List Char := if headIs '-' t || headIs '+' t then t.tail else t
      let ed := t1.takeWhile Char.isDigit
      if ed.isEmpty then .val (Rat.divInt mant den)
      else
        let e : ℤ := if headIs '-' t then -(digitsToNat ed : ℤ) else (digitsToNat ed : ℤ)
        if 0 ≤ e then .val (Rat.divInt (mant * Int.ofNat (pow10 e.toNat)) den)
        else .val (Rat.divInt mant (den * pow10 (-e).toNat))
    else .val (Rat.divInt mant den)

/-- The digit head of a numeral: after leading whitespace and an optional
sign, the longest run of digits. -/
def intDigitsHead (l : List Char) : List Char :=
  let l0 := l.dropWhile Char.isWhitespace
  (if headIs '-' l0 || headIs '+' l0 then l0.tail else l0).takeWhile Char.isDigit

/-- Whether the numeral is negative: the first non-whitespace character is a
minus sign. -/
def numeralNeg (l : List Char) : Bool :=
  headIs '-' (l.dropWhile Char.isWhitespace)

/-- Model of JS `parseInt(s, 10)`: skip leading whitespace, optional sign,
longest digit head; no digits gives NaN.  The result is always an integer. -/
def jsParseInt (s : String) : JSNum :=
  let ds := intDigitsHead s.data
  if ds.isEmpty then .nan
  else
    let m : ℤ := Int.ofNat (digitsToNat ds)
    .val (Rat.divInt (if numeralNeg s.data then -m else m) 1)

/-- JS `a || b` where `a` is a number and `b` a plain rational default:
NaN and zero fall through to the default. -/
def jsOrNum (a : JSNum) (b : ℚ) : ℚ :=
  match a with
  | .nan => b
  | .val q => if q.num = 0 then b else q

/-! ## The numeric normalizer (`parseNumberWithUnit`, src/weibo.ts 409-421) -/

/-- Embeds `parseNumberWithUnit` of src/weibo.ts (lines 409-421): empty text
is 0; text containing the marker `万` has its first marker removed, is parsed
as a float and multiplied by 10000 (no truncation); likewise `亿` with
100000000; otherwise commas are removed and the text is parsed with
`parseInt`, with NaN (and 0) collapsing to 0 through `|| 0`. -/
def parseNumberWithUnit (text : String) : JSNum :=
  if text = "" then .val 0
  else if hasSubstr "万".data text.data then
    (jsParseFloat (String.mk (replaceFirst "万".data [] text.data))).mul (.val 10000)
  else if hasSubstr "亿".data text.data then
    (jsParseFloat (String.mk (replaceFirst "亿".data [] text.data))).mul (.val 100000000)
  else .val (jsOrNum (jsParseInt (String.mk (removeCommas text.data))) 0)

example : parseNumberWithUnit "2.5万" = JSNum.val 25000 := by rfl
example : parseNumberWithUnit "1,234" = JSNum.val 1234 := by rfl
example : parseNumberWithUnit "" = JSNum.val 0 := by rfl
example : parseNumberWithUnit "赞" = JSNum.val 0 := by rfl
example : parseNumberWithUnit "2.55556万" = JSNum.val (Rat.divInt 127778 5) := by rfl
example : parseNumberWithUnit "万" = JSNum.nan := by rfl
example : parseNumberWithUnit "3亿" = JSNum.val 300000000 := by rfl
example : (parseNumberWithUnit "2.55556万") ≠ JSNum.val 25555 := by decide

/-! ## The cookie-string parser (`parseCookieString`, src/xiaohongshu.ts 95-104
and the identical copy in src/weibo.ts 89-98) -/

/-- Assignment to a string-keyed JS object property: an existing key is
updated in place (insertion order kept), a new key is appended.  The value is
`Option String` because `acc[key] = value` can store JS `undefined` (modelled
`none`) when the destructuring `[key, value]` found no second segment. -/
def objInsert (m : List (String × Option String)) (k : String) (v : Option String) :
    List (String × Option String) :=
  match m with
  | [] => [(k, v)]
  | (k', v') :: t => if k' = k then (k, v) :: t else (k', v') :: objInsert t k v

/-- Core of `parseCookieString` over a character list: split on `;`, trim each
pair, then for each pair split on `=` and destructure the first two segments
as `[key, value]` (a value containing `=` is therefore cut at the second `=`,
and a pair without `=` stores `undefined`), accumulating into a JS object. -/
def parseCookiePairs (l : List Char) : List (String × Option String) :=
  ((splitOnChar ';' l).map jsTrim).foldl
    (fun acc pair =>
      let parts := splitOnChar '=' pair
      objInsert acc (String.mk (parts.headD [])) ((parts.get? 1).map String.mk))
    []

/-- Embeds `parseCookieString` (src/xiaohongshu.ts 95-104; src/weibo.ts 89-98
is character-for-character identical): the returned JS object is modelled as
an insertion-ordered association list. -/
def parseCookieString (s : String) : List (String × Option String) :=
  parseCookiePairs s.data

/-- Render a list of key/value pairs as a raw cookie string `k1=v1;k2=v2;...`
(used to quantify over well-formed cookie strings). -/
def renderCookie (ps : List (String × String)) : String :=
  String.mk (joinWith ';' (ps.map fun p => p.1.data ++ '=' :: p.2.data))

/-- A well-formed cookie component: no separator characters and no whitespace
(so trimming is the identity and the splits recover the components). -/
def wfCookiePart (s : String) : Prop :=
  ∀ c ∈ s.data, c ≠ ';' ∧ c ≠ '=' ∧ ¬ c.isWhitespace

instance (s : String) : Decidable (wfCookiePart s) := by
  unfold wfCookiePart; infer_instance

example : parseCookieString "a=1; b=2" = [("a", some "1"), ("b", some "2")] := by rfl
example : parseCookieString "a=b=c" = [("a", some "b")] := by rfl
example : parseCookieString "k" = [("k", none)] := by rfl
example : parseCookieString "a=1; a=2" = [("a", some "2")] := by rfl

/-! ## Tag / topic normalization -/

/-- JS `str.replace(/^#/, '')`: removes exactly one leading hash, if any. -/
def stripLeadingHash : List Char → List Char
  | '#' :: t => t
  | l => l

/-- JS `str.replace(/#$/, '')`: removes exactly one trailing hash, if any. -/
def stripTrailingHash (l : List Char) : List Char :=
  match l.reverse with
  | '#' :: t => t.reverse
  | _ => l

/-- Tag cleaning of the xiaohongshu extractor (src/xiaohongshu.ts 359-361):
trim, remove one leading `#`, delete all whitespace. -/
def normalizeTagXHS (s : String) : String :=
  String.mk (removeAllWs (stripLeadingHash (jsTrim s.data)))

/-- Topic cleaning of the weibo extractor (src/weibo.ts 286-289): trim,
remove one leading `#`, remove one trailing `#`, delete all whitespace. -/
def normalizeTagWeibo (s : String) : String :=
  String.mk (removeAllWs (stripTrailingHash (stripLeadingHash (jsTrim s.data))))

example : normalizeTagXHS "  #AI 学习  " = "AI学习" := by rfl
example : normalizeTagWeibo "  #AI 学习  " = "AI学习" := by rfl
example : normalizeTagXHS "#AI#" = "AI#" := by rfl
example : normalizeTagWeibo "##AI##" = "#AI#" := by rfl
example : normalizeTagXHS "##AI#" = "#AI#" := by rfl

/-! ## Detail-view interaction-count parsing -/

/-- Count parsing of the xiaohongshu detail extractor (src/xiaohongshu.ts
413-416 and the like shapes at 421-424, 429-432): trim, strip commas, and
only a token that is then a nonempty digit string passes the `/^\d+$/` guard
and is parsed with `parseInt`; anything else leaves the count at 0. -/
def xhsCountFromText (t : String) : Nat :=
  let s := removeCommas (jsTrim t.data)
  if s.isEmpty = false ∧ allDigits s = true then digitsToNat s else 0

/-- Count parsing of the weibo detail extractor (src/weibo.ts 336-339 and the
like shapes at 343-346, 350-353): trim, then `parseNumberWithUnit`. -/
def weiboCountFromText (t : String) : JSNum :=
  parseNumberWithUnit (jsTrimStr t)

example : xhsCountFromText "1,234" = 1234 := by rfl
example : xhsCountFromText "2.5万" = 0 := by rfl
example : xhsCountFromText "赞" = 0 := by rfl
example : weiboCountFromText " 2.5万 " = JSNum.val 25000 := by rfl

/-! ## DOM model

A rendered element is modelled by its observable surface: nullable
`textContent`, attributes, `outerHTML`, scoped `querySelector` /
`querySelectorAll` (selector strings are opaque keys), and `closest('a')`. -/

/-- Model of a DOM element / document root. -/
inductive DomElem where
  | mk (textContent : Option String) (attrs : List (String × String))
       (outerHTML : String)
       (sub : String → Option DomElem) (subAll : String → List DomElem)
       (closestAnchor : Option DomElem)

/-- The element's nullable `textContent`. -/
def DomElem.textContent : DomElem → Option String
  | .mk t _ _ _ _ _ => t

/-- JS `getAttribute`: `null` (here `none`) when the attribute is absent. -/
def DomElem.getAttribute : DomElem → String → Option String
  | .mk _ a _ _ _ _, k => a.lookup k

/-- Scoped `querySelector`. -/
def DomElem.qs : DomElem → String → Option DomElem
  | .mk _ _ _ s _ _, sel => s sel

/-- Scoped `querySelectorAll`, as the matched elements in document order. -/
def DomElem.qsa : DomElem → String → List DomElem
  | .mk _ _ _ _ s _, sel => s sel

/-- The element's `outerHTML`. -/
def DomElem.outerHTML : DomElem → String
  | .mk _ _ h _ _ _ => h

/-- JS `el.closest('a')`. -/
def DomElem.closestAnchor : DomElem → Option DomElem
  | .mk _ _ _ _ _ c => c

/-- An element with no children or attributes beyond those given. -/
def leafElem (t : Option String) (attrs : List (String × String)) : DomElem :=
  .mk t attrs "" (fun _ => none) (fun _ => []) none

/-- JS `querySelector(a) || querySelector(b)`: `querySelector` returns `null`
when nothing matches and `null` is falsy, so this fallback works. -/
def jsOrElem (a b : Option DomElem) : Option DomElem :=
  match a with
  | some e => some e
  | none => b

/-- JS truthiness of a `NodeList`: a `NodeList` is an object and objects are
always truthy — even an EMPTY `NodeList`. -/
def nodeListTruthy (_ : List DomElem) : Bool := true

/-- JS `querySelectorAll(a) || querySelectorAll(b)`: because the left
`NodeList` is truthy even when empty, `||` short-circuits on it and the
right-hand selector is never consulted. -/
def jsOrNodeList (a b : List DomElem) : List DomElem :=
  if nodeListTruthy a then a else b

/-- The guard pattern `el && el.textContent` applied to a nullable element:
yields the text when the element exists and its text is truthy (non-null and
nonempty). -/
def truthyText (e : Option DomElem) : Option String :=
  match e with
  | some el =>
      match el.textContent with
      | some t => if t = "" then none else some t
      | none => none
  | none => none

/-- The pattern `el.textContent?.trim() || ''` applied to a nullable
element. -/
def textTrimOrEmpty (e : Option DomElem) : String :=
  match e with
  | some el =>
      match el.textContent with
      | some t => jsTrimStr t
      | none => ""
  | none => ""

/-! ## Data model of the extracted records -/

/-- Author sub-object of a record (src/xiaohongshu.ts 66-71). -/
structure Author where
  id : String
  name : String
  avatar : String
  url : String
deriving DecidableEq, Repr

/-- Interaction counters of the xiaohongshu detail extractor; all three are
produced by regex-guarded `parseInt` and hence are plain naturals. -/
structure XHSInteractions where
  likes : Nat
  collects : Nat
  comments : Nat
deriving DecidableEq, Repr

/-- One extracted top-level comment (src/xiaohongshu.ts 73-78). -/
structure XHSComment where
  content : String
  author : String
  time : String
  likes : Nat
deriving DecidableEq, Repr

/-- Result shape of `extractNoteDetail` (src/xiaohongshu.ts 289-312). -/
structure NoteDetail where
  title : String
  content : String
  htmlContent : String
  images : List String
  tags : List String
  author : Author
  interactions : XHSInteractions
  commentList : List XHSComment
deriving DecidableEq, Repr

/-- The `XHSNote` record (src/xiaohongshu.ts 38-79) as the enumeration step
constructs it: all fields present.  Numeric interaction fields are `JSNum`
because the card-level like count comes from unguarded `parseFloat` /
`parseInt` arithmetic and can be fractional or NaN. -/
structure XHSNote where
  id : String
  title : String
  summary : String
  fullContent : String
  htmlContent : String
  coverImage : String
  images : List String
  publishTime : String
  likes : JSNum
  collects : JSNum
  comments : JSNum
  url : String
  tags : List String
  author : Author
  commentList : List XHSComment
deriving DecidableEq, Repr

/-- Result of a feed walk (src/xiaohongshu.ts 82-89). -/
structure FetchNotesResult where
  success : Bool
  notes : Option (List XHSNote)
  error : Option String
deriving DecidableEq, Repr

/-- Interaction counters of the weibo detail extractor; these come from
`parseNumberWithUnit` without any guard, so they are arbitrary `JSNum`. -/
structure WeiboInteractions where
  likes : JSNum
  reposts : JSNum
  comments : JSNum
deriving DecidableEq, Repr

/-- One extracted weibo comment; its like count also goes through
`parseNumberWithUnit` (src/weibo.ts 388-396). -/
structure WeiboComment where
  content : String
  author : String
  time : String
  likes : JSNum
deriving DecidableEq, Repr

/-- Result shape of `extractWeiboDetail` (src/weibo.ts 228-250). -/
structure WeiboDetail where
  content : String
  htmlContent : String
  images : List String
  topics : List String
  author : Author
  interactions : WeiboInteractions
  commentList : List WeiboComment
deriving DecidableEq, Repr

/-- The `WeiboPost` record (src/weibo.ts 36-73) as the enumeration step
constructs it. -/
structure WeiboPost where
  id : String
  content : String
  htmlContent : String
  coverImage : String
  images : List String
  publishTime : String
  likes : JSNum
  reposts : JSNum
  comments : JSNum
  url : String
  topics : List String
  author : Author
  commentList : List WeiboComment
deriving DecidableEq, Repr

/-! ## The xiaohongshu detail extractor (`extractNoteDetail`, 313-494) -/

/-- Comment-like-count parsing of the xiaohongshu extractor (src/xiaohongshu.ts
467-471): trim, and only a token that is not the bare `赞` label and is a pure
digit string is parsed; no comma stripping here. -/
def xhsCommentLikes (t : String) : Nat :=
  let s := jsTrim t.data
  if s ≠ "赞".data ∧ s.isEmpty = false ∧ allDigits s = true then digitsToNat s else 0

/-- Regex `/profile\/([^?]+)/`: scan for the first position where the literal
`profile/` is followed by at least one non-`?` character; the capture is the
maximal run of non-`?` characters after the marker.  When the run is empty the
regex engine keeps scanning (backtracking), modelled by recursing on the
tail. -/
def findProfileId : List Char → Option String
  | [] => none
  | l@(_ :: t) =>
      if leadsWith "profile/".data l then
        let cap := (l.drop "profile/".data.length).takeWhile (fun c => c ≠ '?')
        if cap.isEmpty then findProfileId t else some (String.mk cap)
      else findProfileId t

/-- Image extraction of `extractNoteDetail` (src/xiaohongshu.ts 338-349):
the `querySelectorAll` fallback chain (see `jsOrNodeList`), then a `forEach`
keeping only truthy `src` attributes whose URL contains neither `avatar` nor
`emoji`. -/
def extractImages (doc : DomElem) : List String :=
  let imageElements := jsOrNodeList (doc.qsa "img.note-slider-img")
      (jsOrNodeList (doc.qsa ".media-container img") (doc.qsa ".img-container img"))
  imageElements.filterMap (fun img =>
    match img.getAttribute "src" with
    | some src =>
        if src ≠ "" ∧ hasSubstr "avatar".data src.data = false
            ∧ hasSubstr "emoji".data src.data = false
        then some src else none
    | none => none)

/-- Tag extraction of `extractNoteDetail` (src/xiaohongshu.ts 351-367): the
`querySelectorAll` fallback chain, then a `forEach` over elements whose text
is truthy and does not contain `作者`, cleaning each and keeping nonempty
results. -/
def extractTags (doc : DomElem) : List String :=
  let tagElements := jsOrNodeList (doc.qsa ".tag") (doc.qsa "a[id=\"hash-tag\"]")
  tagElements.filterMap (fun tagEl =>
    match tagEl.textContent with
    | some t =>
        if t ≠ "" ∧ hasSubstr "作者".data t.data = false then
          let tagText := normalizeTagXHS t
          if tagText ≠ "" then some tagText else none
        else none
    | none => none)

/-- Embeds `extractNoteDetail` (src/xiaohongshu.ts 313-494), the
`page.evaluate` body run against a loaded note detail document. -/
def extractNoteDetail (doc : DomElem) : NoteDetail :=
  let noteContainer := jsOrElem (doc.qs "#noteContainer") (doc.qs ".note-container")
  let htmlContent := match noteContainer with
    | some el => el.outerHTML
    | none => ""
  let titleEl := jsOrElem (doc.qs "#detail-title") (jsOrElem (doc.qs ".title") (doc.qs "h1"))
  let title := match truthyText titleEl with
    | some t => jsTrimStr t
    | none => ""
  let contentEl := jsOrElem (doc.qs "#detail-desc")
      (jsOrElem (doc.qs ".desc") (jsOrElem (doc.qs ".content") (doc.qs ".note-content")))
  let content := textTrimOrEmpty contentEl
  let images := extractImages doc
  let tags := extractTags doc
  let authorEl := jsOrElem (doc.qs ".author-wrapper .name") (doc.qs ".author-wrapper .username")
  let author0 : Author :=
    match authorEl with
    | some el =>
        let name := match el.textContent with
          | some t => jsTrimStr t
          | none => ""
        match el.closestAnchor with
        | some link =>
            let u := (link.getAttribute "href").getD ""
            { id := (findProfileId u.data).getD "", name := name, avatar := "", url := u }
        | none => { id := "", name := name, avatar := "", url := "" }
    | none => { id := "", name := "", avatar := "", url := "" }
  let avatarEl := jsOrElem (doc.qs ".author-wrapper img") (doc.qs ".avatar-item")
  let author : Author :=
    match avatarEl with
    | some el => { author0 with avatar := (el.getAttribute "src").getD "" }
    | none => author0
  let interactionBar := jsOrElem (doc.qs ".engage-bar-style") (doc.qs ".buttons")
  let interactions : XHSInteractions :=
    match interactionBar with
    | some bar =>
        { likes := match truthyText (bar.qs ".like-wrapper .count") with
            | some t => xhsCountFromText t
            | none => 0
          collects := match truthyText (bar.qs ".collect-wrapper .count") with
            | some t => xhsCountFromText t
            | none => 0
          comments := match truthyText (bar.qs ".chat-wrapper .count") with
            | some t => xhsCountFromText t
            | none => 0 }
    | none => { likes := 0, collects := 0, comments := 0 }
  let commentItems := doc.qsa ".comment-item:not(.comment-item-sub)"
  let commentList := commentItems.filterMap (fun item =>
    let commentContent := match truthyText (item.qs ".content") with
      | some t => jsTrimStr t
      | none => ""
    let commentAuthor := match truthyText (item.qs ".author .name") with
      | some t => jsTrimStr t
      | none => ""
    let commentTime := match truthyText (item.qs ".date span:first-child") with
      | some t => jsTrimStr t
      | none => ""
    let commentLikes := match truthyText (item.qs ".like .count") with
      | some t => xhsCommentLikes t
      | none => 0
    if commentContent ≠ "" then
      some { content := commentContent, author := commentAuthor,
             time := commentTime, likes := commentLikes }
    else none)
  { title := title, content := content, htmlContent := htmlContent,
    images := images, tags := tags, author := author,
    interactions := interactions, commentList := commentList }

/-! ## The xiaohongshu enumeration step (src/xiaohongshu.ts 524-595) -/

/-- Card-level like-count parsing (src/xiaohongshu.ts 562-569): a token with
`万` goes through `parseFloat * 10000` (unguarded — NaN and fractions
possible), the bare `赞` label stays 0, and everything else goes through
comma-stripping `parseInt || 0`. -/
def cardLikesFromText (t : String) : JSNum :=
  if t = "" then .val 0
  else if hasSubstr "万".data t.data then
    (jsParseFloat (String.mk (replaceFirst "万".data [] t.data))).mul (.val 10000)
  else if t ≠ "赞" then .val (jsOrNum (jsParseInt (String.mk (removeCommas t.data))) 0)
  else .val 0

/-- JS `url.split('/').pop()?.split('?')[0] || ''` guarded by `url ? ... : ''`:
the last `/`-segment of the URL, cut before any query string. -/
def lastUrlSegment (url : String) : String :=
  if url = "" then ""
  else String.mk ((splitOnChar '?' ((splitOnChar '/' url.data).reverse.headD [])).headD [])

/-- The card's link element (src/xiaohongshu.ts 530-531): `a.cover`, with the
second `a` of the card as the fallback (`querySelectorAll('a')[1]`, which can
be `undefined`). -/
def cardLink (card : DomElem) : Option DomElem :=
  jsOrElem (card.qs "a.cover") ((card.qsa "a").get? 1)

/-- The raw href (src/xiaohongshu.ts 532): `getAttribute('href')` of the link
element, or the string `''` when there is no link element. -/
def cardHref (card : DomElem) : Option String :=
  match cardLink card with
  | some el => el.getAttribute "href"
  | none => some ""

/-- The card url (src/xiaohongshu.ts 533): a falsy href (null or empty) gives
`''`; an href already starting with `http` is kept; any other href is
prefixed with the platform origin. -/
def cardUrl (card : DomElem) : String :=
  match cardHref card with
  | some h =>
      if h = "" then ""
      else if leadsWith "http".data h.data then h
      else "https://www.xiaohongshu.com" ++ h
  | none => ""

/-- Embeds the per-card arrow function of the enumeration step
(src/xiaohongshu.ts 528-594): synchronous extraction of the summary fields of
one `section.note-item` card. -/
def extractCard (card : DomElem) : XHSNote :=
  let linkElement := cardLink card
  let url := cardUrl card
  let id := lastUrlSegment url
  let title := textTrimOrEmpty (card.qs ".title span")
  let coverImage := match linkElement with
    | some el =>
        match el.qs "img" with
        | some img => (img.getAttribute "src").getD ""
        | none => ""
    | none => ""
  let authorName := textTrimOrEmpty (card.qs ".author-wrapper .name")
  let authorUrl := match card.qs ".author-wrapper a.author" with
    | some el => (el.getAttribute "href").getD ""
    | none => ""
  let authorId := lastUrlSegment authorUrl
  let authorAvatar := match card.qs ".author-wrapper .author-avatar" with
    | some el => (el.getAttribute "src").getD ""
    | none => ""
  let likeCountText := match card.qs ".like-wrapper .count" with
    | some el =>
        match el.textContent with
        | some t => if jsTrimStr t = "" then "0" else jsTrimStr t
        | none => "0"
    | none => "0"
  { id := id, title := title, summary := title, fullContent := "", htmlContent := "",
    coverImage := coverImage, images := [], publishTime := "",
    likes := cardLikesFromText likeCountText, collects := .val 0, comments := .val 0,
    url := url, tags := [],
    author := { id := authorId, name := authorName, avatar := authorAvatar,
                url := if leadsWith "http".data authorUrl.data then authorUrl
                       else "https://www.xiaohongshu.com" ++ authorUrl },
    commentList := [] }

/-! ## The merge steps -/

/-- Embeds the merge of detail output into a summary card
(src/xiaohongshu.ts 638-648): spread of the card, then field assignments.
`||` on strings keeps the card value when the detail string is empty; `||` on
the detail counts keeps the card value when the detail count is 0; the author
object is replaced wholesale exactly when the detail author id is truthy. -/
def mergeNote (card : XHSNote) (d : NoteDetail) : XHSNote :=
  { card with
    title := if d.title ≠ "" then d.title else card.title
    fullContent := d.content
    htmlContent := d.htmlContent
    images := d.images
    tags := d.tags
    likes := if d.interactions.likes ≠ 0 then .val d.interactions.likes else card.likes
    collects := if d.interactions.collects ≠ 0 then .val d.interactions.collects else card.collects
    comments := if d.interactions.comments ≠ 0 then .val d.interactions.comments else card.comments
    author := if d.author.id ≠ "" then d.author else card.author
    commentList := d.commentList }

/-- Embeds the merge of weibo detail output into a summary card
(src/weibo.ts 607-616).  The weibo detail counts are `JSNum`, so the `||`
fallback fires on 0 and on NaN alike (JS falsiness). -/
def mergePost (post : WeiboPost) (d : WeiboDetail) : WeiboPost :=
  { post with
    content := if d.content ≠ "" then d.content else post.content
    htmlContent := d.htmlContent
    images := d.images
    topics := d.topics
    likes := if d.interactions.likes.truthy then d.interactions.likes else post.likes
    reposts := if d.interactions.reposts.truthy then d.interactions.reposts else post.reposts
    comments := if d.interactions.comments.truthy then d.interactions.comments else post.comments
    author := if d.author.id ≠ "" then d.author else post.author
    commentList := d.commentList }

/-! ## The feed walk (`fetchLatestNotes`, src/xiaohongshu.ts 498-675)

The walk's effectful steps are driven by an explicit environment recording
the outcome of every fallible operation.  `browser.newPage`, `setViewport`,
the scroll and the enumeration `page.evaluate` are modelled as non-failing;
`puppeteer.launch` (outside the try), the initial `page.goto`, the per-item
detail `goto` (whose failure is swallowed by an empty catch), the per-item
`extractNoteDetail` evaluation (`none` = it threw) and the per-item
`newPage.close()` are fallible. -/

/-- Environment of one `fetchLatestNotes` run. -/
structure WalkEnv where
  /-- Whether `puppeteer.launch` succeeds.  It is awaited before the
  try/catch, so its failure rejects the returned promise. -/
  launchOk : Bool
  /-- Whether the initial `page.goto(HOME_URL, ...)` succeeds. -/
  navOk : Bool
  /-- The `section.note-item` elements of the listing document, in document
  order, as found after scrolling. -/
  listing : List DomElem
  /-- Whether the detail navigation of item `i` succeeds; its failure is
  swallowed by the empty inner `catch (navError)`. -/
  detailNavOk : Nat → Bool
  /-- The document the detail extraction of item `i` evaluates against;
  `none` means `extractNoteDetail` threw. -/
  detailDoc : Nat → Option DomElem
  /-- Whether `newPage.close()` of item `i` succeeds. -/
  closeOk : Nat → Bool

/-- The error result message used when the initial navigation throws. -/
def navErrorMsg : String := "Navigation failed"

/-- The records appended by the loop iteration of index `i` on summary card
`card` (src/xiaohongshu.ts 601-661): an empty url short-circuits with the
card; otherwise a failing extraction pushes the card from the inner catch,
a successful one pushes the merged note — and in both cases a subsequent
`newPage.close()` failure reaches the outer catch, which pushes the card
once more. -/
def iterRecords (env : WalkEnv) (i : Nat) (card : XHSNote) : List XHSNote :=
  if card.url = "" then [card]
  else
    (match env.detailDoc i with
      | none => [card]
      | some doc => [mergeNote card (extractNoteDetail doc)]) ++
    (if env.closeOk i then [] else [card])

/-- The single record of iteration `i` when its `newPage.close()` succeeds. -/
def itemRecord (env : WalkEnv) (i : Nat) (card : XHSNote) : XHSNote :=
  if card.url = "" then card
  else
    match env.detailDoc i with
    | none => card
    | some doc => mergeNote card (extractNoteDetail doc)

/-- The enrichment loop (src/xiaohongshu.ts 601-661) over the enumerated
cards, accumulating `completeNotes` in order. -/
def enrichLoop (env : WalkEnv) : Nat → List XHSNote → List XHSNote
  | _, [] => []
  | i, c :: rest => iterRecords env i c ++ enrichLoop env (i + 1) rest

/-- The records of a run that got past the initial navigation. -/
def notesOf (env : WalkEnv) (limit : Nat) : List XHSNote :=
  enrichLoop env 0 ((env.listing.take limit).map extractCard)

/-- Embeds `fetchLatestNotes` (src/xiaohongshu.ts 498-675).  `Except.error`
models a rejected promise (an exception reaching the caller); `Except.ok`
carries the `FetchNotesResult` value.  `puppeteer.launch` is awaited before
the try block, so its failure is a rejection, not a `success: false` result;
an initial-navigation failure is caught and returned as `success: false`;
everything after that returns `success: true` with the accumulated records,
because every per-item failure is caught inside the loop.  The enumeration
takes `slice(0, limit)` of the listing's cards, in document order. -/
def fetchLatestNotes (env : WalkEnv) (limit : Nat) : Except String FetchNotesResult :=
  if env.launchOk = false then .error "launch failed"
  else if env.navOk = false then
    .ok { success := false, notes := none, error := some navErrorMsg }
  else
    .ok { success := true, notes := some (notesOf env limit), error := none }

/-! ## Supporting lemmas: generic list and character facts -/

lemma list_map_id_of {α : Type} (f : α → α) :
    ∀ l : List α, (∀ x ∈ l, f x = x) → l.map f = l := by
  intro l h
  induction l with
  | nil => rfl
  | cons x t ih =>
      simp only [List.map_cons]
      rw [h x (by simp), ih (fun y hy => h y (by simp [hy]))]

lemma list_takeWhile_all {α : Type} (p : α → Bool) :
    ∀ l : List α, (∀ x ∈ l, p x = true) → l.takeWhile p = l := by
  intro l h
  induction l with
  | nil => rfl
  | cons x t ih =>
      have hx := h x (by simp)
      have ht := ih (fun y hy => h y (by simp [hy]))
      simp [List.takeWhile_cons, hx, ht]

lemma list_dropWhile_all_false {α : Type} (p : α → Bool) :
    ∀ l : List α, (∀ x ∈ l, p x = false) → l.dropWhile p = l := by
  intro l h
  cases l with
  | nil => rfl
  | cons x t => simp [List.dropWhile_cons, h x (by simp)]

lemma digit_ne_of_not_digit {c d : Char} (h : c.isDigit = true) (hd : d.isDigit = false) :
    c ≠ d := by
  intro e
  subst e
  rw [h] at hd
  exact Bool.noConfusion hd

lemma digit_not_ws {c : Char} (h : c.isDigit = true) : c.isWhitespace = false := by
  rcases hw : c.isWhitespace with _ | _
  · rfl
  · exfalso
    have hc : c = ' ' ∨ c = '\t' ∨ c = '\r' ∨ c = '\n' := by
      simpa [Char.isWhitespace, or_assoc] using hw
    rcases hc with h1 | h1 | h1 | h1 <;> subst h1 <;> exact absurd h (by decide)

lemma hasSubstr_singleton (c : Char) :
    ∀ l : List Char, hasSubstr [c] l = l.any (fun x => x = c) := by
  intro l
  induction l with
  | nil => rfl
  | cons x t ih => simp [hasSubstr, leadsWith, ih, eq_comm]

lemma jsTrim_all_not_ws (l : List Char) (h : ∀ x ∈ l, x.isWhitespace = false) :
    jsTrim l = l := by
  unfold jsTrim
  rw [list_dropWhile_all_false _ l h,
      list_dropWhile_all_false _ l.reverse (fun x hx => h x (List.mem_reverse.mp hx)),
      List.reverse_reverse]

lemma string_mk_data (s : String) : String.mk s.data = s := by
  cases s
  rfl

lemma string_data_append (a b : String) : (a ++ b).data = a.data ++ b.data := by
  cases a
  cases b
  rfl

/-! ## Supporting lemmas: parsing of pure digit strings -/

lemma string_data_mk (l : List Char) : (String.mk l).data = l := rfl

lemma jsParseInt_digits (x : Char) (t : List Char) (h2 : allDigits (x :: t) = true) :
    jsParseInt (String.mk (x :: t)) =
      JSNum.val (Rat.divInt (Int.ofNat (digitsToNat (x :: t))) 1) := by
  have hall : ∀ y ∈ x :: t, y.isDigit = true := by
    simpa [allDigits, List.all_eq_true] using h2
  have hx := hall x (by simp)
  have hdrop : (x :: t).dropWhile Char.isWhitespace = x :: t :=
    list_dropWhile_all_false _ _ (fun y hy => digit_not_ws (hall y hy))
  have hneg : headIs '-' (x :: t) = false := by
    simp only [headIs, decide_eq_false_iff_not]
    exact digit_ne_of_not_digit hx (by decide)
  have hplus : headIs '+' (x :: t) = false := by
    simp only [headIs, decide_eq_false_iff_not]
    exact digit_ne_of_not_digit hx (by decide)
  have htake : (x :: t).takeWhile Char.isDigit = x :: t := list_takeWhile_all _ _ hall
  have hds : intDigitsHead (x :: t) = x :: t := by
    simp [intDigitsHead, hdrop, hneg, hplus, htake]
  have hnneg : numeralNeg (x :: t) = false := by
    simp [numeralNeg, hdrop, hneg]
  simp [jsParseInt, string_data_mk, hds, hnneg, List.isEmpty]

lemma jsOrNum_parseInt_integral (s : String) :
    ∃ n : ℤ, jsOrNum (jsParseInt s) 0 = Rat.divInt n 1 := by
  have h0 : (0 : ℚ) = Rat.divInt 0 1 := by rfl
  cases h : (intDigitsHead s.data).isEmpty with
  | true =>
      have hj : jsParseInt s = JSNum.nan := by simp [jsParseInt, h]
      rw [hj]
      exact ⟨0, h0⟩
  | false =>
      have hj : jsParseInt s =
          JSNum.val (Rat.divInt (if numeralNeg s.data then
            -(Int.ofNat (digitsToNat (intDigitsHead s.data)))
            else Int.ofNat (digitsToNat (intDigitsHead s.data))) 1) := by
        simp [jsParseInt, h]
      rw [hj]
      simp only [jsOrNum]
      by_cases hz : (Rat.divInt (if numeralNeg s.data then
          -(Int.ofNat (digitsToNat (intDigitsHead s.data)))
          else Int.ofNat (digitsToNat (intDigitsHead s.data))) 1).num = 0
      · exact ⟨0, by rw [if_pos hz]; exact h0⟩
      · exact ⟨_, by rw [if_neg hz]⟩

/-! ## Claim C1: the numeric normalizer -/

/-- C1 counterexample: the claim states that the `万` branch truncates the
product to an integer and that the result is an integer for every token.  On
the token `2.55556万` the code returns the untruncated rational 25555.6
(denominator 5, hence not an integer), not the truncation 25555. -/
theorem c1_normalizer_counterexample :
    parseNumberWithUnit "2.55556万" = JSNum.val (Rat.divInt 127778 5) ∧
    (Rat.divInt 127778 5 : ℚ).den ≠ 1 ∧
    parseNumberWithUnit "2.55556万" ≠ JSNum.val 25555 := by
  refine ⟨by rfl, by decide, by decide⟩

/-- C1 (amended): the normalizer maps the empty token to 0, expands `2.5万`
to 25000, strips separators in `1,234`, maps the placeholder `赞` to 0; a
token without a magnitude marker always yields an integer; and a token
containing `万` yields `parseFloat` of the marker-stripped remainder times
10000 WITHOUT truncation (so the result can be fractional, or NaN when the
remainder does not parse). -/
theorem c1_normalizer_amended :
    parseNumberWithUnit "" = JSNum.val 0 ∧
    parseNumberWithUnit "2.5万" = JSNum.val 25000 ∧
    parseNumberWithUnit "1,234" = JSNum.val 1234 ∧
    parseNumberWithUnit "赞" = JSNum.val 0 ∧
    (∀ t : String, hasSubstr "万".data t.data = false →
      hasSubstr "亿".data t.data = false →
      ∃ n : ℤ, parseNumberWithUnit t = JSNum.val (Rat.divInt n 1)) ∧
    (∀ t : String, hasSubstr "万".data t.data = true →
      parseNumberWithUnit t =
        (jsParseFloat (String.mk (replaceFirst "万".data [] t.data))).mul
          (JSNum.val 10000)) := by
  refine ⟨by rfl, by rfl, by rfl, by rfl, ?_, ?_⟩
  · intro t h1 h2
    by_cases ht : t = ""
    · subst ht
      exact ⟨0, by rfl⟩
    · obtain ⟨n, hn⟩ := jsOrNum_parseInt_integral (String.mk (removeCommas t.data))
      refine ⟨n, ?_⟩
      simp only [parseNumberWithUnit, if_neg ht, h1, h2, Bool.false_eq_true, if_false]
      rw [hn]
  · intro t h1
    by_cases ht : t = ""
    · subst ht
      exact absurd h1 (by decide)
    · simp only [parseNumberWithUnit, if_neg ht, h1, if_true]

/-- C1 witness: the integrality part of the amended claim applied to the
marker-free token `7`. -/
theorem c1_normalizer_witness :
    ∃ n : ℤ, parseNumberWithUnit "7" = JSNum.val (Rat.divInt n 1) :=
  c1_normalizer_amended.2.2.2.2.1 "7" (by rfl) (by rfl)

/-! ## Supporting lemmas: the enrichment loop -/

lemma mergeNote_id (c : XHSNote) (d : NoteDetail) : (mergeNote c d).id = c.id := rfl

lemma mergeNote_url (c : XHSNote) (d : NoteDetail) : (mergeNote c d).url = c.url := rfl

lemma mergeNote_images (c : XHSNote) (d : NoteDetail) :
    (mergeNote c d).images = d.images := rfl

lemma extractCard_url (e : DomElem) : (extractCard e).url = cardUrl e := rfl

lemma extractCard_images (e : DomElem) : (extractCard e).images = [] := rfl

lemma itemRecord_id (env : WalkEnv) (i : Nat) (c : XHSNote) :
    (itemRecord env i c).id = c.id := by
  unfold itemRecord
  split
  · rfl
  · cases env.detailDoc i
    · rfl
    · exact mergeNote_id _ _

lemma itemRecord_of_detail_none (env : WalkEnv) (i : Nat) (c : XHSNote)
    (h : env.detailDoc i = none) : itemRecord env i c = c := by
  unfold itemRecord
  split
  · rfl
  · rw [h]

lemma iterRecords_closeOk (env : WalkEnv) (i : Nat) (c : XHSNote)
    (h : env.closeOk i = true) : iterRecords env i c = [itemRecord env i c] := by
  unfold iterRecords itemRecord
  split
  · rfl
  · cases env.detailDoc i <;> simp [h]

lemma iterRecords_length_pos (env : WalkEnv) (i : Nat) (c : XHSNote) :
    1 ≤ (iterRecords env i c).length := by
  unfold iterRecords
  split
  · simp
  · cases env.detailDoc i <;> cases h : env.closeOk i <;> simp

lemma iterRecords_mem (env : WalkEnv) (i : Nat) (c : XHSNote) (r : XHSNote)
    (h : r ∈ iterRecords env i c) :
    r = c ∨ ∃ doc, r = mergeNote c (extractNoteDetail doc) := by
  unfold iterRecords at h
  by_cases hu : c.url = ""
  · rw [if_pos hu] at h
    simp at h
    exact Or.inl h
  · rw [if_neg hu] at h
    rcases List.mem_append.mp h with h1 | h1
    · cases hd : env.detailDoc i with
      | none => rw [hd] at h1; simp at h1; exact Or.inl h1
      | some doc => rw [hd] at h1; simp at h1; exact Or.inr ⟨doc, h1⟩
    · cases hc : env.closeOk i with
      | true => rw [hc] at h1; simp at h1
      | false => rw [hc] at h1; simp at h1; exact Or.inl h1

lemma enrichLoop_length_closeOk (env : WalkEnv) (hc : ∀ j, env.closeOk j = true) :
    ∀ (cards : List XHSNote) (i0 : Nat),
      (enrichLoop env i0 cards).length = cards.length := by
  intro cards
  induction cards with
  | nil => intro i0; rfl
  | cons c rest ih =>
      intro i0
      simp [enrichLoop, iterRecords_closeOk env i0 c (hc i0), ih (i0 + 1)]

lemma enrichLoop_get?_closeOk (env : WalkEnv) (hc : ∀ j, env.closeOk j = true) :
    ∀ (cards : List XHSNote) (i0 k : Nat),
      (enrichLoop env i0 cards).get? k = (cards.get? k).map (itemRecord env (i0 + k)) := by
  intro cards
  induction cards with
  | nil => intro i0 k; rfl
  | cons c rest ih =>
      intro i0 k
      have hiter : iterRecords env i0 c = [itemRecord env i0 c] :=
        iterRecords_closeOk env i0 c (hc i0)
      rw [show enrichLoop env i0 (c :: rest) =
            iterRecords env i0 c ++ enrichLoop env (i0 + 1) rest from rfl,
          hiter, List.singleton_append]
      cases k with
      | zero => rfl
      | succ k' =>
          have harith : i0 + 1 + k' = i0 + (k' + 1) := by omega
          simp only [List.get?_cons_succ]
          rw [ih (i0 + 1) k', harith]

lemma enrichLoop_map_id_closeOk (env : WalkEnv) (hc : ∀ j, env.closeOk j = true) :
    ∀ (cards : List XHSNote) (i0 : Nat),
      (enrichLoop env i0 cards).map XHSNote.id = cards.map XHSNote.id := by
  intro cards
  induction cards with
  | nil => intro i0; rfl
  | cons c rest ih =>
      intro i0
      simp [enrichLoop, iterRecords_closeOk env i0 c (hc i0), itemRecord_id, ih (i0 + 1)]

lemma enrichLoop_length_ge (env : WalkEnv) :
    ∀ (cards : List XHSNote) (i0 : Nat),
      cards.length ≤ (enrichLoop env i0 cards).length := by
  intro cards
  induction cards with
  | nil => intro i0; simp [enrichLoop]
  | cons c rest ih =>
      intro i0
      simp only [enrichLoop, List.length_append, List.length_cons]
      have h1 := iterRecords_length_pos env i0 c
      have h2 := ih (i0 + 1)
      omega

lemma enrichLoop_mem (env : WalkEnv) :
    ∀ (cards : List XHSNote) (i0 : Nat) (r : XHSNote),
      r ∈ enrichLoop env i0 cards →
      ∃ c ∈ cards, r = c ∨ ∃ doc, r = mergeNote c (extractNoteDetail doc) := by
  intro cards
  induction cards with
  | nil => intro i0 r h; exact absurd h (by simp [enrichLoop])
  | cons c rest ih =>
      intro i0 r h
      rcases List.mem_append.mp h with h1 | h1
      · exact ⟨c, by simp, iterRecords_mem env i0 c r h1⟩
      · obtain ⟨c', hc', hr⟩ := ih (i0 + 1) r h1
        exact ⟨c', by simp [hc'], hr⟩

/-! ## Claim C2: the enrichment merge policy -/

/-- C2: in both merge steps, every numeric interaction field of the merged
record equals the detail value exactly when that detail value is truthy
(nonzero, and for weibo also non-NaN) and otherwise keeps the card's previous
value; the author object is replaced wholesale by the detail author exactly
when the detail author id is non-empty. -/
theorem c2_merge_policy :
    (∀ (card : XHSNote) (d : NoteDetail),
      (d.interactions.likes ≠ 0 →
        (mergeNote card d).likes = JSNum.val d.interactions.likes) ∧
      (d.interactions.likes = 0 → (mergeNote card d).likes = card.likes) ∧
      (d.interactions.collects ≠ 0 →
        (mergeNote card d).collects = JSNum.val d.interactions.collects) ∧
      (d.interactions.collects = 0 → (mergeNote card d).collects = card.collects) ∧
      (d.interactions.comments ≠ 0 →
        (mergeNote card d).comments = JSNum.val d.interactions.comments) ∧
      (d.interactions.comments = 0 → (mergeNote card d).comments = card.comments) ∧
      (d.author.id ≠ "" → (mergeNote card d).author = d.author) ∧
      (d.author.id = "" → (mergeNote card d).author = card.author)) ∧
    (∀ (post : WeiboPost) (d : WeiboDetail),
      (d.interactions.likes.truthy = true →
        (mergePost post d).likes = d.interactions.likes) ∧
      (d.interactions.likes.truthy = false → (mergePost post d).likes = post.likes) ∧
      (d.interactions.reposts.truthy = true →
        (mergePost post d).reposts = d.interactions.reposts) ∧
      (d.interactions.reposts.truthy = false → (mergePost post d).reposts = post.reposts) ∧
      (d.interactions.comments.truthy = true →
        (mergePost post d).comments = d.interactions.comments) ∧
      (d.interactions.comments.truthy = false →
        (mergePost post d).comments = post.comments) ∧
      (d.author.id ≠ "" → (mergePost post d).author = d.author) ∧
      (d.author.id = "" → (mergePost post d).author = post.author)) := by
  constructor
  · intro card d
    refine ⟨?_, ?_, ?_, ?_, ?_, ?_, ?_, ?_⟩ <;> intro h <;> simp [mergeNote, h]
  · intro post d
    refine ⟨?_, ?_, ?_, ?_, ?_, ?_, ?_, ?_⟩ <;> intro h <;> simp [mergePost, h]

/-- A concrete summary card used by witnesses. -/
def sampleCard : XHSNote :=
  { id := "n1", title := "t", summary := "t", fullContent := "", htmlContent := "",
    coverImage := "", images := [], publishTime := "",
    likes := JSNum.val 3, collects := JSNum.val 4, comments := JSNum.val 5,
    url := "https://www.xiaohongshu.com/explore/n1", tags := [],
    author := { id := "a1", name := "older", avatar := "", url := "" },
    commentList := [] }

/-- A concrete detail-extraction result with truthy counts and an empty
author id. -/
def sampleDetail : NoteDetail :=
  { title := "T", content := "body", htmlContent := "<div/>",
    images := [], tags := [],
    author := { id := "", name := "x", avatar := "", url := "" },
    interactions := { likes := 7, collects := 0, comments := 9 },
    commentList := [] }

/-- A concrete weibo summary card. -/
def samplePost : WeiboPost :=
  { id := "w1", content := "c", htmlContent := "", coverImage := "", images := [],
    publishTime := "", likes := JSNum.val 3, reposts := JSNum.val 4,
    comments := JSNum.val 5, url := "https://weibo.com/1/w1", topics := [],
    author := { id := "u9", name := "older", avatar := "", url := "" },
    commentList := [] }

/-- A concrete weibo detail-extraction result with a NaN like count and a
non-empty author id. -/
def sampleWeiboDetail : WeiboDetail :=
  { content := "", htmlContent := "", images := [], topics := [],
    author := { id := "u123", name := "newer", avatar := "a", url := "u" },
    interactions := { likes := JSNum.nan, reposts := JSNum.val 2,
                      comments := JSNum.val 0 },
    commentList := [] }

/-- C2 witness: the merge policy applied at concrete records — a nonzero
detail count overwrites, a zero one keeps the card value, the empty-id detail
author does not overwrite, the NaN weibo like count keeps the card value, and
the non-empty-id weibo author replaces the card author. -/
theorem c2_merge_policy_witness :
    (mergeNote sampleCard sampleDetail).likes = JSNum.val sampleDetail.interactions.likes ∧
    (mergeNote sampleCard sampleDetail).collects = sampleCard.collects ∧
    (mergeNote sampleCard sampleDetail).author = sampleCard.author ∧
    (mergePost samplePost sampleWeiboDetail).likes = samplePost.likes ∧
    (mergePost samplePost sampleWeiboDetail).author = sampleWeiboDetail.author :=
  ⟨((c2_merge_policy.1 sampleCard sampleDetail).1) (by decide),
   ((c2_merge_policy.1 sampleCard sampleDetail).2.2.2.1) (by decide),
   ((c2_merge_policy.1 sampleCard sampleDetail).2.2.2.2.2.2.2) (by decide),
   ((c2_merge_policy.2 samplePost sampleWeiboDetail).2.1) (by decide),
   ((c2_merge_policy.2 samplePost sampleWeiboDetail).2.2.2.2.2.2.1) (by decide)⟩

/-! ## Claim C3: run-level versus item-level failure -/

/-- An environment whose browser launch fails. -/
def envLaunchFail : WalkEnv :=
  { launchOk := false, navOk := true, listing := [],
    detailNavOk := fun _ => true, detailDoc := fun _ => none,
    closeOk := fun _ => true }

/-- C3 counterexample: the claim states that the walk returns
`{success: false, error}` exactly when the initial session launch or initial
navigation fails.  But `puppeteer.launch` is awaited BEFORE the try block
(src/xiaohongshu.ts 499-504), so a launch failure rejects the promise — the
caller gets an exception, never a `success: false` result value. -/
theorem c3_error_propagation_counterexample :
    fetchLatestNotes envLaunchFail 10 = Except.error "launch failed" ∧
    (fetchLatestNotes envLaunchFail 10).isOk = false := by
  refine ⟨by rfl, by rfl⟩

lemma enrichLoop_detailNav_irrelevant (env : WalkEnv) (f : Nat → Bool) :
    ∀ (cards : List XHSNote) (i0 : Nat),
      enrichLoop { env with detailNavOk := f } i0 cards = enrichLoop env i0 cards := by
  intro cards
  induction cards with
  | nil => intro i0; rfl
  | cons c rest ih =>
      intro i0
      show iterRecords { env with detailNavOk := f } i0 c ++
          enrichLoop { env with detailNavOk := f } (i0 + 1) rest =
        iterRecords env i0 c ++ enrichLoop env (i0 + 1) rest
      rw [ih (i0 + 1)]
      rfl

/-- C3 (amended): once the launch has succeeded, the walk returns
`{success: false, error}` with no records exactly when the initial navigation
fails (a launch failure instead propagates as a rejected promise); a
per-item detail-navigation failure is invisible (empty catch) and a per-item
extraction failure is recovered locally, so a run over the enumerated cards
still returns `{success: true}` with one record per card, the records of
failed items being exactly their summary-only card values. -/
theorem c3_error_propagation_amended :
    ∀ (env : WalkEnv) (limit : Nat), env.launchOk = true →
      (env.navOk = false →
        fetchLatestNotes env limit =
          Except.ok { success := false, notes := none, error := some navErrorMsg }) ∧
      (env.navOk = true →
        fetchLatestNotes env limit =
          Except.ok { success := true, notes := some (notesOf env limit), error := none } ∧
        (∀ f, fetchLatestNotes { env with detailNavOk := f } limit =
          fetchLatestNotes env limit) ∧
        ((∀ j, env.closeOk j = true) →
          (notesOf env limit).length = (env.listing.take limit).length ∧
          (∀ i, env.detailDoc i = none →
            (notesOf env limit).get? i =
              ((env.listing.take limit).get? i).map extractCard))) := by
  intro env limit hl
  constructor
  · intro hn
    simp [fetchLatestNotes, hl, hn]
  · intro hn
    refine ⟨by simp [fetchLatestNotes, hl, hn], ?_, ?_⟩
    · intro f
      simp only [fetchLatestNotes, notesOf]
      rw [enrichLoop_detailNav_irrelevant env f]
    · intro hcl
      constructor
      · rw [notesOf, enrichLoop_length_closeOk env hcl, List.length_map]
      · intro i hd
        rw [notesOf, enrichLoop_get?_closeOk env hcl _ 0 i, List.get?_map]
        cases h : (env.listing.take limit).get? i with
        | none => rfl
        | some e =>
            simp [Nat.zero_add, itemRecord_of_detail_none env i (extractCard e) hd]

/-- A link element carrying a relative note href. -/
def sampleLink : DomElem :=
  .mk none [("href", "/explore/abc123")] "" (fun _ => none) (fun _ => []) none

/-- A listing card whose `a.cover` link points at a relative note url. -/
def sampleCardDom : DomElem :=
  .mk none [] "" (fun sel => if sel = "a.cover" then some sampleLink else none)
    (fun _ => []) none

/-- An environment whose initial navigation fails. -/
def envNavFail : WalkEnv :=
  { launchOk := true, navOk := false, listing := [],
    detailNavOk := fun _ => true, detailDoc := fun _ => none,
    closeOk := fun _ => true }

/-- An environment in which every per-item extraction throws. -/
def envC3 : WalkEnv :=
  { launchOk := true, navOk := true, listing := [sampleCardDom, sampleCardDom],
    detailNavOk := fun _ => true, detailDoc := fun _ => none,
    closeOk := fun _ => true }

/-- C3 witness: the amended claim applied to a concrete navigation-failure
run and to a concrete run whose every enrichment fails. -/
theorem c3_error_propagation_witness :
    fetchLatestNotes envNavFail 3 =
      Except.ok { success := false, notes := none, error := some navErrorMsg } ∧
    fetchLatestNotes envC3 2 =
      Except.ok { success := true, notes := some (notesOf envC3 2), error := none } :=
  ⟨(c3_error_propagation_amended envNavFail 3 rfl).1 rfl,
   ((c3_error_propagation_amended envC3 2 rfl).2 rfl).1⟩

/-! ## Claim C7: the enumeration takes at most `limit` cards in order -/

/-- C7: a walk that gets past the initial navigation succeeds with exactly
`min limit cards` records, and (when the transient contexts close normally)
the records are in document order: the i-th record derives from the i-th
listing card (same id, no sorting). -/
theorem c7_enumeration_limit :
    ∀ (env : WalkEnv) (limit : Nat),
      env.launchOk = true → env.navOk = true → (∀ j, env.closeOk j = true) →
      fetchLatestNotes env limit =
        Except.ok { success := true, notes := some (notesOf env limit), error := none } ∧
      (notesOf env limit).length = min limit env.listing.length ∧
      (notesOf env limit).map XHSNote.id =
        (env.listing.take limit).map (fun c => (extractCard c).id) := by
  intro env limit hl hn hcl
  refine ⟨by simp [fetchLatestNotes, hl, hn], ?_, ?_⟩
  · rw [notesOf, enrichLoop_length_closeOk env hcl, List.length_map, List.length_take]
  · rw [notesOf, enrichLoop_map_id_closeOk env hcl, List.map_map]
    rfl

/-- A listing of five identical cards with all enrichment succeeding against
an empty detail document. -/
def env7 : WalkEnv :=
  { launchOk := true, navOk := true,
    listing := [sampleCardDom, sampleCardDom, sampleCardDom, sampleCardDom, sampleCardDom],
    detailNavOk := fun _ => true, detailDoc := fun _ => some (leafElem none []),
    closeOk := fun _ => true }

/-- C7 witness: a walk with limit 3 over a 5-card listing yields exactly
`min 3 5 = 3` records, in document order. -/
theorem c7_enumeration_limit_witness :
    fetchLatestNotes env7 3 =
      Except.ok { success := true, notes := some (notesOf env7 3), error := none } ∧
    (notesOf env7 3).length = min 3 env7.listing.length ∧
    (notesOf env7 3).map XHSNote.id =
      (env7.listing.take 3).map (fun c => (extractCard c).id) :=
  c7_enumeration_limit env7 3 rfl rfl (fun _ => rfl)

/-! ## Claim C9: absolute urls and filtered images -/

lemma extractNoteDetail_images (doc : DomElem) :
    (extractNoteDetail doc).images = extractImages doc := rfl

lemma leadsWith_http_origin (l : List Char) :
    leadsWith "http".data ("https://www.xiaohongshu.com".data ++ l) = true := rfl

lemma cardUrl_abs_or_empty (e : DomElem) :
    cardUrl e = "" ∨ leadsWith "http".data (cardUrl e).data = true := by
  unfold cardUrl
  cases h : cardHref e with
  | none => exact Or.inl rfl
  | some hstr =>
      dsimp only
      by_cases h0 : hstr = ""
      · exact Or.inl (by simp [h0])
      · rw [if_neg h0]
        by_cases h1 : leadsWith "http".data hstr.data = true
        · rw [if_pos h1]
          exact Or.inr h1
        · rw [if_neg h1]
          refine Or.inr ?_
          rw [string_data_append]
          exact leadsWith_http_origin hstr.data

lemma extractImages_filtered (doc : DomElem) (u : String) (h : u ∈ extractImages doc) :
    hasSubstr "avatar".data u.data = false ∧ hasSubstr "emoji".data u.data = false := by
  simp only [extractImages] at h
  obtain ⟨img, hmem, heq⟩ := List.mem_filterMap.mp h
  cases hsrc : img.getAttribute "src" with
  | none => simp [hsrc] at heq
  | some src =>
      simp only [hsrc] at heq
      by_cases hcond : src ≠ "" ∧ hasSubstr "avatar".data src.data = false ∧
          hasSubstr "emoji".data src.data = false
      · rw [if_pos hcond] at heq
        obtain rfl : src = u := Option.some.inj heq
        exact ⟨hcond.2.1, hcond.2.2⟩
      · rw [if_neg hcond] at heq
        exact Option.noConfusion heq

/-- A card element whose markup has no cover link at all. -/
def c9cardDom : DomElem := leafElem none []

/-- An environment enumerating the linkless card. -/
def env9 : WalkEnv :=
  { launchOk := true, navOk := true, listing := [c9cardDom],
    detailNavOk := fun _ => true, detailDoc := fun _ => none,
    closeOk := fun _ => true }

/-- C9 counterexample: a successful walk whose record has the empty string as
its url (its card markup had no usable href), which is not an absolute URL —
refuting "for every record in a successful walk result: its url is an
absolute URL". -/
theorem c9_records_counterexample :
    fetchLatestNotes env9 2 =
      Except.ok { success := true, notes := some [extractCard c9cardDom],
                  error := none } ∧
    (extractCard c9cardDom).url = "" ∧
    leadsWith "http".data (extractCard c9cardDom).url.data = false := by
  refine ⟨by rfl, by rfl, by rfl⟩

/-- C9 (amended): every record of a successful walk has a url that is either
empty (no usable href in the card markup) or absolute (starts with `http`,
relative hrefs having been prefixed with the platform origin), and its images
contain no URL whose text contains `avatar` or `emoji`. -/
theorem c9_records_amended :
    ∀ (env : WalkEnv) (limit : Nat) (r : XHSNote),
      env.launchOk = true → env.navOk = true →
      r ∈ notesOf env limit →
      fetchLatestNotes env limit =
        Except.ok { success := true, notes := some (notesOf env limit), error := none } ∧
      (r.url = "" ∨ leadsWith "http".data r.url.data = true) ∧
      (∀ u ∈ r.images, hasSubstr "avatar".data u.data = false ∧
        hasSubstr "emoji".data u.data = false) := by
  intro env limit r hl hn hr
  refine ⟨by simp [fetchLatestNotes, hl, hn], ?_⟩
  obtain ⟨c, hc, hcase⟩ := enrichLoop_mem env _ 0 r hr
  obtain ⟨e, he, rfl⟩ := List.mem_map.mp hc
  rcases hcase with rfl | ⟨doc, rfl⟩
  · constructor
    · rw [extractCard_url]
      exact cardUrl_abs_or_empty e
    · intro u hu
      rw [extractCard_images] at hu
      exact absurd hu (List.not_mem_nil u)
  · constructor
    · rw [mergeNote_url, extractCard_url]
      exact cardUrl_abs_or_empty e
    · intro u hu
      rw [mergeNote_images, extractNoteDetail_images] at hu
      exact extractImages_filtered doc u hu

/-- C9 witness: the amended claim applied to the merged record of a concrete
successful walk. -/
theorem c9_records_witness :
    fetchLatestNotes env7 3 =
      Except.ok { success := true, notes := some (notesOf env7 3), error := none } ∧
    ((mergeNote (extractCard sampleCardDom)
        (extractNoteDetail (leafElem none []))).url = "" ∨
      leadsWith "http".data (mergeNote (extractCard sampleCardDom)
        (extractNoteDetail (leafElem none []))).url.data = true) ∧
    (∀ u ∈ (mergeNote (extractCard sampleCardDom)
        (extractNoteDetail (leafElem none []))).images,
      hasSubstr "avatar".data u.data = false ∧
      hasSubstr "emoji".data u.data = false) :=
  c9_records_amended env7 3 _ rfl rfl (List.mem_cons_self _ _)

/-! ## Claim C10: the record append is not atomic with the context close -/

lemma enrichLoop_exists_of_mem (env : WalkEnv) :
    ∀ (cards : List XHSNote) (i0 : Nat) (c : XHSNote), c ∈ cards →
      ∃ r ∈ enrichLoop env i0 cards,
        r = c ∨ ∃ doc, r = mergeNote c (extractNoteDetail doc) := by
  intro cards
  induction cards with
  | nil => intro i0 c hc; exact absurd hc (List.not_mem_nil c)
  | cons c' rest ih =>
      intro i0 c hc
      rcases List.mem_cons.mp hc with rfl | hmem
      · have hne : iterRecords env i0 c ≠ [] := by
          have := iterRecords_length_pos env i0 c
          intro hnil
          rw [hnil] at this
          exact absurd this (by simp)
        obtain ⟨r, hr⟩ := List.exists_mem_of_ne_nil _ hne
        exact ⟨r, List.mem_append.mpr (Or.inl hr), iterRecords_mem env i0 c r hr⟩
      · obtain ⟨r, hrmem, hrcase⟩ := ih (i0 + 1) c hmem
        exact ⟨r, List.mem_append.mpr (Or.inr hrmem), hrcase⟩

/-- A one-card environment in which the detail extraction succeeds but the
transient context's `close()` then throws. -/
def env10 : WalkEnv :=
  { launchOk := true, navOk := true, listing := [sampleCardDom],
    detailNavOk := fun _ => true, detailDoc := fun _ => some (leafElem none []),
    closeOk := fun _ => false }

/-- C10: the merged record is appended before `newPage.close()` runs, and an
exception in that later step reaches the outer per-item catch, which appends
the summary card again.  Hence (i) every walk yields at least as many records
as enumerated cards, (ii) every enumerated card is represented by at least
one record (its summary value or a merge of it), and (iii) a concrete run in
which `close()` fails after a successful extraction returns TWO records for
its single card — the merged note followed by the summary card. -/
theorem c10_non_atomic_append :
    (∀ (env : WalkEnv) (limit : Nat),
      (env.listing.take limit).length ≤ (notesOf env limit).length) ∧
    (∀ (env : WalkEnv) (limit : Nat) (c : XHSNote),
      c ∈ (env.listing.take limit).map extractCard →
      ∃ r ∈ notesOf env limit,
        r = c ∨ ∃ doc, r = mergeNote c (extractNoteDetail doc)) ∧
    fetchLatestNotes env10 1 =
      Except.ok
        { success := true
          notes := some [mergeNote (extractCard sampleCardDom)
              (extractNoteDetail (leafElem none [])),
            extractCard sampleCardDom]
          error := none } ∧
    (notesOf env10 1).length = 2 ∧ (env10.listing.take 1).length = 1 := by
  refine ⟨?_, ?_, by rfl, by rfl, by rfl⟩
  · intro env limit
    have h := enrichLoop_length_ge env ((env.listing.take limit).map extractCard) 0
    rw [List.length_map] at h
    exact h
  · intro env limit c hc
    exact enrichLoop_exists_of_mem env _ 0 c hc

/-- C10 witness: the per-card representation part applied to the concrete
close-failure run. -/
theorem c10_non_atomic_append_witness :
    ∃ r ∈ notesOf env10 1,
      r = extractCard sampleCardDom ∨
      ∃ doc, r = mergeNote (extractCard sampleCardDom) (extractNoteDetail doc) :=
  c10_non_atomic_append.2.1 env10 1 (extractCard sampleCardDom)
    (List.mem_cons_self _ _)

/-! ## Claim C5: the dual-selector fallback -/

/-- A tag anchor that only the legacy selector matches. -/
def c5tagEl : DomElem := leafElem (some "#AI") []

/-- A detail document in which the primary `.tag` selector matches nothing
while the alternate `a[id="hash-tag"]` selector matches one tag. -/
def c5doc : DomElem :=
  .mk none [] "" (fun _ => none)
    (fun sel => if sel = "a[id=\"hash-tag\"]" then [c5tagEl] else []) none

/-- C5 (code bug): for multi-element fields the legacy selector is dead code.
`querySelectorAll` returns a NodeList, and a NodeList is truthy even when
empty, so `qsa(primary) || qsa(alternate)` always short-circuits to the
primary result; on a document where only the alternate selector matches, the
extractor returns no tags, although the cleaned tag `AI` was available. -/
theorem c5_dead_fallback :
    (∀ (a b : List DomElem), jsOrNodeList a b = a) ∧
    c5doc.qsa ".tag" = [] ∧
    c5doc.qsa "a[id=\"hash-tag\"]" = [c5tagEl] ∧
    (extractNoteDetail c5doc).tags = [] ∧
    normalizeTagXHS "#AI" = "AI" := by
  refine ⟨fun a b => rfl, by rfl, by rfl, by rfl, by rfl⟩

/-! ## Claim C8: tag normalization -/

lemma removeAllWs_no_ws (l : List Char) (c : Char) (h : c ∈ removeAllWs l) :
    c.isWhitespace = false := by
  unfold removeAllWs at h
  have hp := (List.mem_filter.mp h).2
  simpa using hp

/-- C8 counterexample: the claim states the normalized tag has no leading and
no trailing `#`.  But `replace(/^#/,'')` strips only ONE leading hash, and
the xiaohongshu cleaner never strips a trailing hash: `##AI#` normalizes to
`#AI#`, which both starts and ends with `#` (weibo keeps a leading `#` on
`##AI##` as well). -/
theorem c8_tag_normalization_counterexample :
    normalizeTagXHS "##AI#" = "#AI#" ∧
    (normalizeTagXHS "##AI#").data.headD ' ' = '#' ∧
    (normalizeTagXHS "##AI#").data.getLast? = some '#' ∧
    normalizeTagWeibo "##AI##" = "#AI#" := by
  refine ⟨by rfl, by rfl, by rfl, by rfl⟩

/-- C8 (amended): both cleaners remove ALL whitespace (leading, trailing and
internal), strip exactly one leading `#` (weibo additionally one trailing
`#`; xiaohongshu none), and `  #AI 学习  ` normalizes to `AI学习` on both
platforms; `#` markers beyond the single stripped one are retained. -/
theorem c8_tag_normalization_amended :
    (∀ (s : String), ∀ c ∈ (normalizeTagXHS s).data, c.isWhitespace = false) ∧
    (∀ (s : String), ∀ c ∈ (normalizeTagWeibo s).data, c.isWhitespace = false) ∧
    normalizeTagXHS "  #AI 学习  " = "AI学习" ∧
    normalizeTagWeibo "  #AI 学习  " = "AI学习" := by
  refine ⟨?_, ?_, by rfl, by rfl⟩
  · intro s c hc
    exact removeAllWs_no_ws _ c hc
  · intro s c hc
    exact removeAllWs_no_ws _ c hc

/-- C8 witness: the no-whitespace property applied to a concrete character
of a concrete normalized tag. -/
theorem c8_tag_normalization_witness :
    ('A' : Char).isWhitespace = false :=
  c8_tag_normalization_amended.1 "#A B" 'A' (by decide)

/-! ## Claim C6: do interaction counts route through the normalizer? -/

lemma jsOrNum_val_divInt_one (n : ℕ) :
    jsOrNum (JSNum.val (Rat.divInt (Int.ofNat n) 1)) 0 = (n : ℚ) := by
  have hq : (Rat.divInt (Int.ofNat n) 1) = ((n : ℕ) : ℚ) := by
    rw [Rat.divInt_one]
    rfl
  by_cases hn : n = 0
  · subst hn
    simp [jsOrNum, hq]
  · simp [jsOrNum, hq]
    exact fun h0 => absurd h0 hn

/-- A like-count element holding the magnitude-suffixed token. -/
def c6likeCount : DomElem := leafElem (some "2.5万") []

/-- The engagement bar containing it. -/
def c6bar : DomElem :=
  .mk none [] ""
    (fun sel => if sel = ".like-wrapper .count" then some c6likeCount else none)
    (fun _ => []) none

/-- A detail document whose like count reads `2.5万`. -/
def c6doc : DomElem :=
  .mk none [] ""
    (fun sel => if sel = ".engage-bar-style" then some c6bar else none)
    (fun _ => []) none

/-- C6 counterexample: the xiaohongshu detail extractor does NOT route count
tokens through the numeric normalizer — its `/^\d+$/` guard rejects `2.5万`,
leaving the count 0, while the normalizer expands the same token to 25000. -/
theorem c6_count_normalizer_counterexample :
    (extractNoteDetail c6doc).interactions.likes = 0 ∧
    xhsCountFromText "2.5万" = 0 ∧
    parseNumberWithUnit "2.5万" = JSNum.val 25000 ∧
    JSNum.val (((extractNoteDetail c6doc).interactions.likes : ℕ) : ℚ) ≠
      parseNumberWithUnit "2.5万" := by
  have h1 : (extractNoteDetail c6doc).interactions.likes = 0 := by rfl
  refine ⟨h1, by rfl, by rfl, ?_⟩
  rw [h1]
  decide

/-- C6 (amended): the weibo detail extractor routes every count token through
the numeric normalizer (after trimming); the xiaohongshu detail extractor
instead accepts only tokens that are pure digit strings after trimming and
comma-stripping — on those it agrees with the normalizer — and yields 0 on
every other token (so a magnitude-suffixed token expands on weibo but
produces 0 on xiaohongshu). -/
theorem c6_count_normalizer_amended :
    (∀ t : String, weiboCountFromText t = parseNumberWithUnit (jsTrimStr t)) ∧
    (∀ t : String,
      (removeCommas (jsTrim t.data)).isEmpty = false →
      allDigits (removeCommas (jsTrim t.data)) = true →
      JSNum.val ((xhsCountFromText t : ℕ) : ℚ) = parseNumberWithUnit (jsTrimStr t)) ∧
    (∀ t : String,
      ¬ ((removeCommas (jsTrim t.data)).isEmpty = false ∧
         allDigits (removeCommas (jsTrim t.data)) = true) →
      xhsCountFromText t = 0) := by
  refine ⟨fun t => rfl, ?_, ?_⟩
  · intro t h1 h2
    set s := removeCommas (jsTrim t.data) with hs
    obtain ⟨x, t', hx⟩ : ∃ x t', s = x :: t' := by
      cases hsc : s with
      | nil => rw [hsc] at h1; exact absurd h1 (by simp)
      | cons x t' => exact ⟨x, t', rfl⟩
    have hsne : s ≠ [] := by rw [hx]; exact List.cons_ne_nil x t'
    have htrim_ne : jsTrim t.data ≠ [] := by
      intro h0
      apply hsne
      rw [hs, h0]
      rfl
    have hstr_ne : jsTrimStr t ≠ "" := by
      intro h0
      apply htrim_ne
      have hdata := congrArg String.data h0
      simpa [jsTrimStr] using hdata
    have hmix : ∀ c ∈ jsTrim t.data, c = ',' ∨ c.isDigit = true := by
      intro c hc
      by_cases hcc : c = ','
      · exact Or.inl hcc
      · refine Or.inr ?_
        have hcs : c ∈ s := by
          rw [hs]
          exact List.mem_filter.mpr ⟨hc, by simpa using hcc⟩
        have hall := h2
        rw [allDigits, List.all_eq_true] at hall
        exact hall c hcs
    have hwan : hasSubstr "万".data (jsTrimStr t).data = false := by
      show hasSubstr ['万'] (jsTrim t.data) = false
      rw [hasSubstr_singleton, List.any_eq_false]
      intro c hc
      rcases hmix c hc with rfl | hd
      · decide
      · simpa using digit_ne_of_not_digit hd (by decide)
    have hyi : hasSubstr "亿".data (jsTrimStr t).data = false := by
      show hasSubstr ['亿'] (jsTrim t.data) = false
      rw [hasSubstr_singleton, List.any_eq_false]
      intro c hc
      rcases hmix c hc with rfl | hd
      · decide
      · simpa using digit_ne_of_not_digit hd (by decide)
    have hxc : xhsCountFromText t = digitsToNat s := by
      unfold xhsCountFromText
      rw [← hs, if_pos ⟨h1, h2⟩]
    have hrc : removeCommas (jsTrimStr t).data = s := by
      simp only [jsTrimStr, string_data_mk, hs]
    rw [hxc]
    unfold parseNumberWithUnit
    rw [if_neg hstr_ne, hwan, hyi]
    simp only [Bool.false_eq_true, if_false]
    rw [hrc, hx, jsParseInt_digits x t' (by rw [← hx]; exact h2),
        jsOrNum_val_divInt_one (digitsToNat (x :: t')), ← hx]
  · intro t h
    unfold xhsCountFromText
    rw [if_neg h]

/-- C6 witness: the digit-token agreement applied to the concrete token
`1,234`. -/
theorem c6_count_normalizer_witness :
    JSNum.val ((xhsCountFromText "1,234" : ℕ) : ℚ) =
      parseNumberWithUnit (jsTrimStr "1,234") :=
  c6_count_normalizer_amended.2.1 "1,234" (by rfl) (by rfl)

/-! ## Claim C4: the cookie-string parser -/

lemma splitOnChar_cons (c x : Char) (xs : List Char) :
    splitOnChar c (x :: xs) =
      match splitOnChar c xs with
      | [] => [[]]
      | r :: rs => if x = c then [] :: r :: rs else (x :: r) :: rs := rfl

lemma splitOnChar_ne_nil (c : Char) : ∀ l : List Char, splitOnChar c l ≠ [] := by
  intro l
  cases l with
  | nil => simp [splitOnChar]
  | cons x xs =>
      rw [splitOnChar_cons]
      cases h : splitOnChar c xs with
      | nil => simp
      | cons r rs => by_cases hx : x = c <;> simp [hx]

lemma splitOnChar_no_sep (c : Char) : ∀ l : List Char, c ∉ l → splitOnChar c l = [l] := by
  intro l
  induction l with
  | nil => intro _; rfl
  | cons x xs ih =>
      intro h
      have hx : x ≠ c := fun e => h (List.mem_cons.mpr (Or.inl e.symm))
      have hxs : c ∉ xs := fun hm => h (List.mem_cons.mpr (Or.inr hm))
      unfold splitOnChar
      rw [ih hxs]
      simp [hx]

lemma splitOnChar_append_sep (c : Char) :
    ∀ (x t : List Char), c ∉ x →
      splitOnChar c (x ++ c :: t) = x :: splitOnChar c t := by
  intro x
  induction x with
  | nil =>
      intro t _
      show splitOnChar c (c :: t) = [] :: splitOnChar c t
      rw [splitOnChar_cons]
      cases h : splitOnChar c t with
      | nil => exact absurd h (splitOnChar_ne_nil c t)
      | cons r rs => simp
  | cons a as ih =>
      intro t h
      have ha : a ≠ c := fun e => h (List.mem_cons.mpr (Or.inl e.symm))
      have has : c ∉ as := fun hm => h (List.mem_cons.mpr (Or.inr hm))
      show splitOnChar c (a :: (as ++ c :: t)) = (a :: as) :: splitOnChar c t
      rw [splitOnChar_cons, ih t has]
      simp [ha]

lemma splitOnChar_joinWith (c : Char) :
    ∀ (parts : List (List Char)), parts ≠ [] → (∀ p ∈ parts, c ∉ p) →
      splitOnChar c (joinWith c parts) = parts := by
  intro parts
  induction parts with
  | nil => intro h _; exact absurd rfl h
  | cons p rest ih =>
      intro _ hfree
      cases rest with
      | nil =>
          show splitOnChar c (joinWith c [p]) = [p]
          rw [show joinWith c [p] = p from rfl]
          exact splitOnChar_no_sep c p (hfree p (by simp))
      | cons q rest' =>
          show splitOnChar c (p ++ c :: joinWith c (q :: rest')) = p :: q :: rest'
          rw [splitOnChar_append_sep c p _ (hfree p (by simp)),
              ih (by simp) (fun p' hp' => hfree p' (by simp [hp']))]

lemma splitOnChar_eq_pair (k v : List Char) (hk : '=' ∉ k) (hv : '=' ∉ v) :
    splitOnChar '=' (k ++ '=' :: v) = [k, v] := by
  rw [splitOnChar_append_sep '=' k v hk, splitOnChar_no_sep '=' v hv]

lemma objInsert_append_of_not_mem (m : List (String × Option String)) (k : String)
    (v : Option String) (h : ∀ q ∈ m, q.1 ≠ k) :
    objInsert m k v = m ++ [(k, v)] := by
  induction m with
  | nil => rfl
  | cons q t ih =>
      obtain ⟨k', v'⟩ := q
      have hq : k' ≠ k := h (k', v') (by simp)
      have ht : ∀ p ∈ t, p.1 ≠ k := fun p hp => h p (by simp [hp])
      show (if k' = k then (k, v) :: t else (k', v') :: objInsert t k v) =
        (k', v') :: t ++ [(k, v)]
      rw [if_neg hq, ih ht]
      simp

lemma objInsert_lookup_self (m : List (String × Option String)) (k : String)
    (v : Option String) : (objInsert m k v).lookup k = some v := by
  induction m with
  | nil => simp [objInsert, List.lookup]
  | cons q t ih =>
      obtain ⟨k', v'⟩ := q
      unfold objInsert
      by_cases h : k' = k
      · rw [if_pos h]
        subst h
        simp [List.lookup]
      · rw [if_neg h]
        have hb : (k == k') = false := beq_eq_false_iff_ne.mpr (fun e => h e.symm)
        simp [List.lookup, hb, ih]

lemma objInsert_lookup_ne (m : List (String × Option String)) (k : String)
    (v : Option String) (k' : String) (h : k ≠ k') :
    (objInsert m k v).lookup k' = m.lookup k' := by
  induction m with
  | nil =>
      have hb : (k' == k) = false := beq_eq_false_iff_ne.mpr (fun e => h e.symm)
      simp [objInsert, List.lookup, hb]
  | cons q t ih =>
      obtain ⟨k1, v1⟩ := q
      unfold objInsert
      by_cases h1 : k1 = k
      · rw [if_pos h1]
        subst h1
        have hb : (k' == k1) = false := beq_eq_false_iff_ne.mpr (fun e => h (e.symm))
        simp [List.lookup, hb]
      · rw [if_neg h1]
        cases hb : (k' == k1) with
        | true => simp [List.lookup, hb]
        | false => simp [List.lookup, hb, ih]

lemma foldl_objInsert_nodup :
    ∀ (ps : List (String × String)) (acc : List (String × Option String)),
      (∀ p ∈ ps, ∀ q ∈ acc, q.1 ≠ p.1) →
      (ps.map Prod.fst).Nodup →
      ps.foldl (fun m p => objInsert m p.1 (some p.2)) acc =
        acc ++ ps.map (fun p => (p.1, some p.2)) := by
  intro ps
  induction ps with
  | nil => intro acc _ _; simp
  | cons p rest ih =>
      intro acc hacc hnodup
      have hp : ∀ q ∈ acc, q.1 ≠ p.1 := hacc p (by simp)
      have hnodup2 : (p.1 :: rest.map Prod.fst).Nodup := by simpa using hnodup
      have hnd1 : p.1 ∉ rest.map Prod.fst := (List.nodup_cons.mp hnodup2).1
      have hnd2 : (rest.map Prod.fst).Nodup := (List.nodup_cons.mp hnodup2).2
      rw [List.foldl_cons, objInsert_append_of_not_mem acc p.1 (some p.2) hp]
      have hacc' : ∀ p' ∈ rest, ∀ q ∈ acc ++ [(p.1, some p.2)], q.1 ≠ p'.1 := by
        intro p' hp' q hq
        rcases List.mem_append.mp hq with hq1 | hq2
        · exact hacc p' (by simp [hp']) q hq1
        · have hq3 : q = (p.1, some p.2) := by simpa using hq2
          rw [hq3]
          intro e
          have e' : p.1 = p'.1 := e
          exact hnd1 (by rw [e']; exact List.mem_map.mpr ⟨p', hp', rfl⟩)
      rw [ih (acc ++ [(p.1, some p.2)]) hacc' hnd2]
      simp

lemma foldl_objInsert_lookup :
    ∀ (ps : List (String × String)) (acc : List (String × Option String)) (k : String),
      (ps.foldl (fun m p => objInsert m p.1 (some p.2)) acc).lookup k =
        match ps.reverse.find? (fun p => p.1 == k) with
        | some p => some (some p.2)
        | none => acc.lookup k := by
  intro ps
  induction ps with
  | nil => intro acc k; rfl
  | cons p rest ih =>
      intro acc k
      rw [List.foldl_cons, ih]
      rw [show (p :: rest).reverse = rest.reverse ++ [p] from by simp]
      rw [List.find?_append]
      cases hf : rest.reverse.find? (fun p => p.1 == k) with
      | some q => simp
      | none =>
          cases hb : (p.1 == k) with
          | true =>
              have he : p.1 = k := by simpa using hb
              subst he
              simp [List.find?, hb, objInsert_lookup_self]
          | false =>
              have hne : p.1 ≠ k := by simpa using hb
              simp [List.find?, hb, objInsert_lookup_ne acc p.1 (some p.2) k hne]

lemma foldl_parse_chunks :
    ∀ (ps : List (String × String)) (acc : List (String × Option String)),
      (∀ p ∈ ps, wfCookiePart p.1 ∧ wfCookiePart p.2) →
      ((ps.map (fun p => p.1.data ++ '=' :: p.2.data)).foldl
        (fun acc pair =>
          let parts := splitOnChar '=' pair
          objInsert acc (String.mk (parts.headD [])) ((parts.get? 1).map String.mk)) acc) =
      ps.foldl (fun m p => objInsert m p.1 (some p.2)) acc := by
  intro ps
  induction ps with
  | nil => intro acc _; rfl
  | cons p rest ih =>
      intro acc hwf
      have hk : '=' ∉ p.1.data := fun hm => ((hwf p (by simp)).1 '=' hm).2.1 rfl
      have hv : '=' ∉ p.2.data := fun hm => ((hwf p (by simp)).2 '=' hm).2.1 rfl
      have hsplit := splitOnChar_eq_pair p.1.data p.2.data hk hv
      rw [List.map_cons, List.foldl_cons, List.foldl_cons]
      simp only [hsplit, List.headD_cons, List.get?_cons_succ, List.get?_cons_zero,
        Option.map_some', string_mk_data]
      exact ih _ (fun q hq => hwf q (by simp [hq]))

lemma parseCookieString_render (ps : List (String × String)) (hne : ps ≠ [])
    (hwf : ∀ p ∈ ps, wfCookiePart p.1 ∧ wfCookiePart p.2) :
    parseCookieString (renderCookie ps) =
      ps.foldl (fun m p => objInsert m p.1 (some p.2)) [] := by
  unfold parseCookieString renderCookie parseCookiePairs
  rw [string_data_mk]
  rw [splitOnChar_joinWith ';' (ps.map fun p => p.1.data ++ '=' :: p.2.data)
      (by simpa using hne) ?hfree]
  case hfree =>
    intro part hpart
    obtain ⟨p, hp, rfl⟩ := List.mem_map.mp hpart
    intro hmem
    rcases List.mem_append.mp hmem with h1 | h1
    · exact ((hwf p hp).1 ';' h1).1 rfl
    · rcases List.mem_cons.mp h1 with h2 | h2
      · exact absurd h2 (by decide)
      · exact ((hwf p hp).2 ';' h2).1 rfl
  rw [list_map_id_of jsTrim _ ?htrim]
  case htrim =>
    intro part hpart
    obtain ⟨p, hp, rfl⟩ := List.mem_map.mp hpart
    apply jsTrim_all_not_ws
    intro x hx
    rcases List.mem_append.mp hx with h1 | h1
    · simpa using ((hwf p hp).1 x h1).2.2
    · rcases List.mem_cons.mp h1 with h2 | h2
      · subst h2; decide
      · simpa using ((hwf p hp).2 x h2).2.2
  exact foldl_parse_chunks ps [] hwf

/-- C4 counterexample: the claim states the parser splits each pair on the
FIRST `=` (values containing `=` preserved whole) and that a pair with a
missing value is stored with the empty string.  In fact `pair.split('=')`
splits on every `=` and the destructuring `[key, value]` keeps only the first
two segments, so `a=b=c` stores the value `b`, losing `=c`; and a pair
without `=` stores JS `undefined` (modelled `none`), not the empty string. -/
theorem c4_cookie_parser_counterexample :
    parseCookieString "a=b=c" = [("a", some "b")] ∧
    some "b" ≠ some "b=c" ∧
    parseCookieString "sid" = [("sid", (none : Option String))] ∧
    (none : Option String) ≠ some "" := by
  refine ⟨by rfl, by decide, by rfl, by decide⟩

/-- C4 (amended): the parser splits on `;`, trims each pair, splits each pair
on `=` keeping only the first two segments (a value containing `=` is cut at
the second `=`), and a pair with a missing value is stored with an undefined
value (not the empty string), without error.  For every cookie string of N
well-formed `k=v` pairs (components free of `;`, `=` and whitespace) with
distinct keys, the parsed mapping has exactly those N entries in order; with
duplicate keys the mapping holds one entry per distinct key and lookup is
last-write-wins. -/
theorem c4_cookie_parser_amended :
    (∀ ps : List (String × String), ps ≠ [] →
      (∀ p ∈ ps, wfCookiePart p.1 ∧ wfCookiePart p.2) →
      (ps.map Prod.fst).Nodup →
      parseCookieString (renderCookie ps) = ps.map (fun p => (p.1, some p.2))) ∧
    (∀ ps : List (String × String), ps ≠ [] →
      (∀ p ∈ ps, wfCookiePart p.1 ∧ wfCookiePart p.2) →
      ∀ k : String,
        (parseCookieString (renderCookie ps)).lookup k =
          match ps.reverse.find? (fun p => p.1 == k) with
          | some p => some (some p.2)
          | none => none) := by
  constructor
  · intro ps hne hwf hnodup
    rw [parseCookieString_render ps hne hwf]
    simpa using foldl_objInsert_nodup ps [] (by simp) hnodup
  · intro ps hne hwf k
    rw [parseCookieString_render ps hne hwf, foldl_objInsert_lookup ps [] k]
    cases hf : ps.reverse.find? (fun p => p.1 == k) <;> simp [List.lookup]

/-- C4 witness: the amended claim applied to two concrete well-formed cookie
strings, one with distinct keys and one with a duplicate key. -/
theorem c4_cookie_parser_witness :
    parseCookieString (renderCookie [("a", "1"), ("b", "2")]) =
      [("a", some "1"), ("b", some "2")] ∧
    (parseCookieString (renderCookie [("a", "1"), ("a", "3")])).lookup "a" =
      some (some "3") := by
  constructor
  · exact c4_cookie_parser_amended.1 [("a", "1"), ("b", "2")] (by decide)
      (by decide) (by decide)
  · have h := c4_cookie_parser_amended.2 [("a", "1"), ("a", "3")] (by decide)
      (by decide) "a"
    rw [h]
    rfl
